import Mathlib

/-!
Verification of the core data model and host-registration machinery of the
rhai scripting engine, shallowly embedded in Lean 4.

The embedding covers:
* the parse-error taxonomy and its display logic (`src/error.rs`);
* the function-registration adapters (`src/fn_register.rs`), modelled with
  explicit state passing for the by-mutable-reference first parameter;
* the parts of the engine that the visible sources only reference
  (`Position`, `EvalAltResult`, the registry, the checked arithmetic
  builtins, scope/const protection), modelled from the specification.
-/

set_option maxRecDepth 4000

namespace Rhai

/-- Modelled from the spec: `Position` (defined in `parser.rs`, not among the
visible sources) is triple-valued: a concrete `(line, column)` pair, a
distinguished EOF sentinel, and a distinguished none sentinel. -/
inductive Position where
  | pos (line column : Nat)
  | eof
  | nonePos
deriving DecidableEq, Repr

/-- Modelled from the spec: `Position::is_eof`. -/
def Position.is_eof : Position → Bool
  | .eof => true
  | _ => false

/-- Modelled from the spec: `Position::is_none`. -/
def Position.is_none : Position → Bool
  | .nonePos => true
  | _ => false

/-- Modelled from the spec: the `Display` rendering of a `Position` —
`line L, position C` when concrete, suppressed when none, an end-of-input
marker when EOF. -/
def Position.render : Position → String
  | .pos l c => "line " ++ toString l ++ ", position " ++ toString c
  | .eof => "EOF"
  | .nonePos => ""

/-- `ParseErrorType` from `src/error.rs` (all feature flags enabled, so every
variant is present). -/
inductive ParseErrorType where
  | badInput (s : String)
  | unexpectedEOF
  | unknownOperator (s : String)
  | missingToken (token s : String)
  | malformedCallExpr (s : String)
  | malformedIndexExpr (s : String)
  | duplicatedProperty (s : String)
  | forbiddenConstantExpr (s : String)
  | propertyExpected
  | variableExpected
  | exprExpected (s : String)
  | wrongFnDefinition
  | fnMissingName
  | fnMissingParams (s : String)
  | fnDuplicatedParam (s arg : String)
  | fnMissingBody (s : String)
  | assignmentToInvalidLHS
  | assignmentToCopy
  | assignmentToConstant (s : String)
  | loopBreak
deriving DecidableEq, Repr

/-- The single-quote character, used by several display strings. -/
def sqc : String := (Char.ofNat 39).toString

/-- `ParseError::desc` from `src/error.rs`. -/
def ParseErrorType.desc : ParseErrorType → String
  | .badInput p => p
  | .unexpectedEOF => "Script is incomplete"
  | .unknownOperator _ => "Unknown operator"
  | .missingToken _ _ => "Expecting a certain token that is missing"
  | .malformedCallExpr _ => "Invalid expression in function call arguments"
  | .malformedIndexExpr _ => "Invalid index in indexing expression"
  | .duplicatedProperty _ => "Duplicated property in object map literal"
  | .forbiddenConstantExpr _ => "Expecting a constant"
  | .propertyExpected => "Expecting name of a property"
  | .variableExpected => "Expecting name of a variable"
  | .exprExpected _ => "Expecting an expression"
  | .fnMissingName => "Expecting name in function declaration"
  | .fnMissingParams _ => "Expecting parameters in function declaration"
  | .fnDuplicatedParam _ _ => "Duplicated parameters in function declaration"
  | .fnMissingBody _ => "Expecting body statement block for function declaration"
  | .wrongFnDefinition => "Function definitions must be at global level and cannot be inside a block or another function"
  | .assignmentToInvalidLHS => "Cannot assign to this expression"
  | .assignmentToCopy => "Cannot assign to this expression because it will only be changing a copy of the value"
  | .assignmentToConstant _ => "Cannot assign to a constant variable."
  | .loopBreak => "Break statement should only be used inside a loop"

/-- The message part of `impl Display for ParseError` from `src/error.rs`
(everything written before the position suffix). -/
def fmtMessage (e : ParseErrorType) : String :=
  match e with
  | .badInput s => if s = "" then e.desc else s
  | .malformedCallExpr s => if s = "" then e.desc else s
  | .forbiddenConstantExpr s => "Expecting a constant to assign to " ++ sqc ++ s ++ sqc
  | .unknownOperator s => e.desc ++ ": " ++ sqc ++ s ++ sqc
  | .malformedIndexExpr s => if s = "" then e.desc else s
  | .duplicatedProperty s => "Duplicated property " ++ sqc ++ s ++ sqc ++ " for object map literal"
  | .exprExpected s => "Expecting " ++ s ++ " expression"
  | .fnMissingParams s => "Expecting parameters for function " ++ sqc ++ s ++ sqc
  | .fnMissingBody s => "Expecting body statement block for function " ++ sqc ++ s ++ sqc
  | .fnDuplicatedParam s arg => "Duplicated parameter " ++ sqc ++ arg ++ sqc ++ " for function " ++ sqc ++ s ++ sqc
  | .missingToken token s => "Expecting " ++ sqc ++ token ++ sqc ++ " " ++ s
  | .assignmentToConstant s => if s = "" then e.desc else "Cannot assign to constant " ++ sqc ++ s ++ sqc
  | _ => e.desc

/-- The position-suffix branch of `impl Display for ParseError` from
`src/error.rs` lines 216-224, kept exactly as the source has it:
the first branch fires whenever the position is not EOF, the second
(writing nothing) whenever it is EOF but not none, and the end-of-script
text is only reached when the position is both EOF and none. -/
def posSuffix (p : Position) : String :=
  if ¬ p.is_eof then " (" ++ p.render ++ ")"
  else if ¬ p.is_none then ""
  else " at the end of the script but there is no more input"

/-- `ParseError` from `src/error.rs`: an error type paired with a position. -/
structure ParseError where
  errType : ParseErrorType
  errPos : Position
deriving DecidableEq, Repr

/-- The full `Display` output of a `ParseError`: message then suffix. -/
def ParseError.display (e : ParseError) : String :=
  fmtMessage e.errType ++ posSuffix e.errPos

/-- The end-of-script text that `src/error.rs` holds in reserve for the
suffix. -/
def eofSuffixText : String := " at the end of the script but there is no more input"

/-- The type-erased dynamic value carrier (`crate::any::Dynamic`).  The
carrier stores the built-in primitives plus arrays and maps and preserves
runtime type identity for dispatch. -/
inductive Dynamic where
  | vUnit
  | vBool (b : Bool)
  | vInt (i : Int)
  | vChar (c : Char)
  | vStr (s : String)
  | vArray (xs : List Dynamic)
  | vMap (kvs : List (String × Dynamic))

/-- The runtime type identity of a dynamic value (`TypeId` in the source). -/
def Dynamic.typeId : Dynamic → Nat
  | .vUnit => 0
  | .vBool _ => 1
  | .vInt _ => 2
  | .vChar _ => 3
  | .vStr _ => 4
  | .vArray _ => 5
  | .vMap _ => 6

/-- Modelled from the spec: the runtime error taxonomy `EvalAltResult`
(defined in `result.rs`, not among the visible sources).  Each variant
carries a position plus variant-specific payload. -/
inductive EvalAltResult where
  | errorParsing (e : ParseError)
  | errorFunctionNotFound (name : String) (p : Position)
  | errorFunctionArgsMismatch (name : String) (expected actual : Nat) (p : Position)
  | errorBooleanArgMismatch (op : String) (p : Position)
  | errorArrayBounds (len : Nat) (idx : Int) (p : Position)
  | errorStringBounds (len : Nat) (idx : Int) (p : Position)
  | errorIndexingType (p : Position)
  | errorIndexExpr (p : Position)
  | errorIfGuard (p : Position)
  | errorForMismatch (p : Position)
  | errorVariableNotFound (name : String) (p : Position)
  | errorAssignmentToUnknownLHS (p : Position)
  | errorAssignmentToConstant (name : String) (p : Position)
  | errorMismatchOutputType (ty : String) (p : Position)
  | errorDotExpr (p : Position)
  | errorArithmetic (msg : String) (p : Position)
  | errorStackOverflow (p : Position)
  | errorTooManyOperations (p : Position)
  | errorLoopBreak (p : Position)
  | returnValue (v : Dynamic) (p : Position)
  | errorRuntime (msg : String) (p : Position)

/-- Modelled from the spec: `EvalAltResult::set_position` stamps the given
position onto the error. -/
def EvalAltResult.set_position (e : EvalAltResult) (p : Position) : EvalAltResult :=
  match e with
  | .errorParsing pe => .errorParsing ⟨pe.errType, p⟩
  | .errorFunctionNotFound n _ => .errorFunctionNotFound n p
  | .errorFunctionArgsMismatch n x a _ => .errorFunctionArgsMismatch n x a p
  | .errorBooleanArgMismatch o _ => .errorBooleanArgMismatch o p
  | .errorArrayBounds l i _ => .errorArrayBounds l i p
  | .errorStringBounds l i _ => .errorStringBounds l i p
  | .errorIndexingType _ => .errorIndexingType p
  | .errorIndexExpr _ => .errorIndexExpr p
  | .errorIfGuard _ => .errorIfGuard p
  | .errorForMismatch _ => .errorForMismatch p
  | .errorVariableNotFound n _ => .errorVariableNotFound n p
  | .errorAssignmentToUnknownLHS _ => .errorAssignmentToUnknownLHS p
  | .errorAssignmentToConstant n _ => .errorAssignmentToConstant n p
  | .errorMismatchOutputType t _ => .errorMismatchOutputType t p
  | .errorDotExpr _ => .errorDotExpr p
  | .errorArithmetic m _ => .errorArithmetic m p
  | .errorStackOverflow _ => .errorStackOverflow p
  | .errorTooManyOperations _ => .errorTooManyOperations p
  | .errorLoopBreak _ => .errorLoopBreak p
  | .returnValue v _ => .returnValue v p
  | .errorRuntime m _ => .errorRuntime m p

/-- The position carried by an `EvalAltResult`. -/
def EvalAltResult.position : EvalAltResult → Position
  | .errorParsing pe => pe.errPos
  | .errorFunctionNotFound _ p => p
  | .errorFunctionArgsMismatch _ _ _ p => p
  | .errorBooleanArgMismatch _ p => p
  | .errorArrayBounds _ _ p => p
  | .errorStringBounds _ _ p => p
  | .errorIndexingType p => p
  | .errorIndexExpr p => p
  | .errorIfGuard p => p
  | .errorForMismatch p => p
  | .errorVariableNotFound _ p => p
  | .errorAssignmentToUnknownLHS p => p
  | .errorAssignmentToConstant _ p => p
  | .errorMismatchOutputType _ p => p
  | .errorDotExpr p => p
  | .errorArithmetic _ p => p
  | .errorStackOverflow p => p
  | .errorTooManyOperations p => p
  | .errorLoopBreak p => p
  | .returnValue _ p => p
  | .errorRuntime _ p => p

/-- The argument carrier passed to every registry entry (`FnCallArgs`). -/
abbrev FnCallArgs := List Dynamic

/-- The per-slot `downcast_mut::<T>().unwrap()` sequence of the adapter
closures in `src/fn_register.rs`: each argument slot is downcast to the
registered type for that slot; a mismatch anywhere is the panic branch,
modelled as `none`. -/
def downcastAll : List Nat → FnCallArgs → Option (List Dynamic)
  | [], [] => some []
  | t :: ts, a :: rest =>
    if a.typeId = t then (downcastAll ts rest).map (a :: ·) else none
  | _, _ => none

/-- The outcome of invoking a registry entry: `none` is the unwrap-panic
branch of the adapter; otherwise the entry returns the produced dynamic
value together with the post-call state of the argument slots. -/
abbrev AdapterOutcome := Option (Except EvalAltResult (Dynamic × FnCallArgs))

/-- The adapter closure built by `register_fn` (src/fn_register.rs lines
151-175) in the all-by-value mode: the argument count is checked first
against the registered parameter count; each slot is downcast and cloned
into a typed local; the native function is applied to the clones, so the
argument slots are left unchanged; its typed return is boxed into a
dynamic value. -/
def register_fn_value (fnName : String) (tids : List Nat) (box : α → Dynamic)
    (f : List Dynamic → α) (args : FnCallArgs) (pos : Position) : AdapterOutcome :=
  if args.length ≠ tids.length then
    some (.error (.errorFunctionArgsMismatch fnName tids.length args.length pos))
  else
    match downcastAll tids args with
    | none => none
    | some vals => some (.ok (box (f vals), args))

/-- The adapter closure built by `register_fn` in the by-mutable-reference
mode (first parameter `&mut`, src/fn_register.rs line 256): the first slot
is passed through without cloning — modelled by state passing, the native
function returns its result together with the updated first value, which
is written back into the first slot — while the remaining slots are cloned
and left unchanged. -/
def register_fn_mut (fnName : String) (t0 : Nat) (tids : List Nat) (box : α → Dynamic)
    (f : Dynamic → List Dynamic → α × Dynamic) (args : FnCallArgs) (pos : Position) :
    AdapterOutcome :=
  if args.length ≠ (t0 :: tids).length then
    some (.error (.errorFunctionArgsMismatch fnName (t0 :: tids).length args.length pos))
  else
    match downcastAll (t0 :: tids) args with
    | none => none
    | some [] => none
    | some (a0 :: rest) =>
      let r := f a0 rest
      some (.ok (box r.1, r.2 :: args.tail))

/-- The adapter closure built by `register_dynamic_fn` (src/fn_register.rs
lines 188-211), all-by-value mode: identical to `register_fn` except that
the native function already returns a dynamic value, which is passed
through unchanged. -/
def register_dynamic_fn_value (fnName : String) (tids : List Nat)
    (f : List Dynamic → Dynamic) (args : FnCallArgs) (pos : Position) : AdapterOutcome :=
  if args.length ≠ tids.length then
    some (.error (.errorFunctionArgsMismatch fnName tids.length args.length pos))
  else
    match downcastAll tids args with
    | none => none
    | some vals => some (.ok (f vals, args))

/-- The adapter closure built by `register_dynamic_fn` in the
by-mutable-reference mode. -/
def register_dynamic_fn_mut (fnName : String) (t0 : Nat) (tids : List Nat)
    (f : Dynamic → List Dynamic → Dynamic × Dynamic) (args : FnCallArgs) (pos : Position) :
    AdapterOutcome :=
  if args.length ≠ (t0 :: tids).length then
    some (.error (.errorFunctionArgsMismatch fnName (t0 :: tids).length args.length pos))
  else
    match downcastAll (t0 :: tids) args with
    | none => none
    | some [] => none
    | some (a0 :: rest) =>
      let r := f a0 rest
      some (.ok (r.1, r.2 :: args.tail))

/-- The adapter closure built by `register_result_fn` (src/fn_register.rs
lines 225-249), all-by-value mode: a successful native result is boxed
into a dynamic value; a native error has the current call position stamped
onto it via `set_position` before it surfaces. -/
def register_result_fn_value (fnName : String) (tids : List Nat) (box : α → Dynamic)
    (f : List Dynamic → Except EvalAltResult α) (args : FnCallArgs) (pos : Position) :
    AdapterOutcome :=
  if args.length ≠ tids.length then
    some (.error (.errorFunctionArgsMismatch fnName tids.length args.length pos))
  else
    match downcastAll tids args with
    | none => none
    | some vals =>
      match f vals with
      | .ok r => some (.ok (box r, args))
      | .error e => some (.error (e.set_position pos))

/-- The adapter closure built by `register_result_fn` in the
by-mutable-reference mode. -/
def register_result_fn_mut (fnName : String) (t0 : Nat) (tids : List Nat) (box : α → Dynamic)
    (f : Dynamic → List Dynamic → Except EvalAltResult (α × Dynamic)) (args : FnCallArgs)
    (pos : Position) : AdapterOutcome :=
  if args.length ≠ (t0 :: tids).length then
    some (.error (.errorFunctionArgsMismatch fnName (t0 :: tids).length args.length pos))
  else
    match downcastAll (t0 :: tids) args with
    | none => none
    | some [] => none
    | some (a0 :: rest) =>
      match f a0 rest with
      | .ok r => some (.ok (box r.1, r.2 :: args.tail))
      | .error e => some (.error (e.set_position pos))

/-- The uniform shape of a registry entry: argument slots plus a call
position in, an adapter outcome out. -/
abbrev NativeEntry := FnCallArgs → Position → AdapterOutcome

/-- A registry record: the signature key (name and ordered argument
type-id list) together with the adapted callable. -/
structure FnSpec where
  name : String
  args : List Nat
  func : NativeEntry

/-- The function registry: signature keys mapped to entries. -/
abbrev Registry := List FnSpec

/-- Modelled from the spec: `Engine::register_fn_raw` (defined in
`engine.rs`, not among the visible sources) — inserting under a signature
key removes any earlier entry with the same key, so re-registration
replaces and the registry never holds two entries with identical keys. -/
def register_fn_raw (reg : Registry) (name : String) (tids : List Nat)
    (f : NativeEntry) : Registry :=
  ⟨name, tids, f⟩ :: reg.filter (fun e => ¬(e.name = name ∧ e.args = tids))

/-- Modelled from the spec: registry lookup by exact signature key. -/
def find_entry (reg : Registry) (name : String) (tids : List Nat) : Option FnSpec :=
  reg.find? (fun e => e.name = name ∧ e.args = tids)

/-- No two registry records share a signature key. -/
def goodKeys (reg : Registry) : Prop :=
  reg.Pairwise (fun a b => ¬(a.name = b.name ∧ a.args = b.args))

/-- The 64-bit `INT_MIN` of the default integer type. -/
def INT_MIN : Int := -9223372036854775808

/-- The 64-bit `INT_MAX` of the default integer type. -/
def INT_MAX : Int := 9223372036854775807

/-- Whether a mathematical integer is representable in the 64-bit integer
type. -/
def fitsInt (x : Int) : Bool := INT_MIN ≤ x ∧ x ≤ INT_MAX

/-- Modelled from the spec: the checked-addition builtin registered for
`+` on integers (lives in `engine.rs`, not among the visible sources).
With `unchecked_arithmetic` off it reports overflow or underflow instead
of wrapping, mirroring `i64::checked_add`. -/
def checked_add (x y : Int) : Except String Int :=
  if fitsInt (x + y) then .ok (x + y) else .error "Addition overflow"

/-- Modelled from the spec: the checked-subtraction builtin for `-`,
mirroring `i64::checked_sub`. -/
def checked_sub (x y : Int) : Except String Int :=
  if fitsInt (x - y) then .ok (x - y) else .error "Subtraction underflow"

/-- Modelled from the spec: the checked-multiplication builtin for `*`,
mirroring `i64::checked_mul`. -/
def checked_mul (x y : Int) : Except String Int :=
  if fitsInt (x * y) then .ok (x * y) else .error "Multiplication overflow"

/-- Modelled from the spec: the checked-division builtin for `/`,
mirroring `i64::checked_div`: division by zero and the lone overflowing
quotient `INT_MIN / -1` are faults; otherwise the quotient truncates
toward zero as in Rust. -/
def checked_div (x y : Int) : Except String Int :=
  if y = 0 then .error "Division by zero"
  else if x = INT_MIN ∧ y = -1 then .error "Division overflow"
  else .ok (Int.tdiv x y)

/-- Modelled from the spec: the checked-remainder builtin for `%`,
mirroring `i64::checked_rem`. -/
def checked_rem (x y : Int) : Except String Int :=
  if y = 0 then .error "Remainder by zero"
  else if x = INT_MIN ∧ y = -1 then .error "Remainder overflow"
  else .ok (Int.tmod x y)

/-- Modelled from the spec: the checked `abs` builtin, mirroring
`i64::checked_abs`: negating `INT_MIN` overflows. -/
def checked_abs (x : Int) : Except String Int :=
  if x = INT_MIN then .error "Negation overflow"
  else .ok (if x < 0 then -x else x)

/-- Lifts a checked-arithmetic result into the registry-entry result
shape: a fault becomes `ErrorArithmetic(msg, pos)`. -/
def toArith (pos : Position) : Except String Int → Except EvalAltResult Dynamic
  | .ok v => .ok (.vInt v)
  | .error m => .error (.errorArithmetic m pos)

/-- The registered `+` callable on integers as the evaluator invokes it. -/
def builtin_add (x y : Int) (pos : Position) : Except EvalAltResult Dynamic :=
  toArith pos (checked_add x y)

/-- The registered `-` callable on integers as the evaluator invokes it. -/
def builtin_sub (x y : Int) (pos : Position) : Except EvalAltResult Dynamic :=
  toArith pos (checked_sub x y)

/-- The registered `*` callable on integers as the evaluator invokes it. -/
def builtin_mul (x y : Int) (pos : Position) : Except EvalAltResult Dynamic :=
  toArith pos (checked_mul x y)

/-- The registered `/` callable on integers as the evaluator invokes it. -/
def builtin_div (x y : Int) (pos : Position) : Except EvalAltResult Dynamic :=
  toArith pos (checked_div x y)

/-- The registered `%` callable on integers as the evaluator invokes it. -/
def builtin_rem (x y : Int) (pos : Position) : Except EvalAltResult Dynamic :=
  toArith pos (checked_rem x y)

/-- The registered `abs` callable on integers as the evaluator invokes it. -/
def builtin_abs (x : Int) (pos : Position) : Except EvalAltResult Dynamic :=
  toArith pos (checked_abs x)

/-- A step of an lvalue chain after the root identifier: an index access
or a member access. -/
inductive LStep where
  | index (i : Int)
  | member (prop : String)

/-- The statements of the const-protection fragment of the language: a
`const` binding, a `let` binding, and an assignment whose lvalue chain is
a root identifier followed by index/member steps. -/
inductive Stmt where
  | constDecl (name : String) (v : Dynamic)
  | letDecl (name : String) (v : Dynamic)
  | assign (root : String) (steps : List LStep) (rhs : Dynamic) (pos : Position)

/-- Modelled from the spec: the scope is an ordered sequence of entries
`(name, value, is_const)`, scanned most-recent-first. -/
abbrev Scope := List (String × Dynamic × Bool)

/-- Modelled from the spec: scope lookup, most recent binding first. -/
def lookupScope : Scope → String → Option (Dynamic × Bool)
  | [], _ => none
  | (n, v, c) :: rest, x => if n = x then some (v, c) else lookupScope rest x

/-- Looks up a property of a map value. -/
def mapGet : List (String × Dynamic) → String → Option Dynamic
  | [], _ => none
  | (k, v) :: rest, p => if k = p then some v else mapGet rest p

/-- Replaces a property of a map value. -/
def mapSet : List (String × Dynamic) → String → Dynamic → List (String × Dynamic)
  | [], _, _ => []
  | (k, v) :: rest, p, w => if k = p then (k, w) :: rest else (k, v) :: mapSet rest p w

/-- Modelled from the spec: resolving the lvalue chain below the root and
writing the right-hand side into the leaf slot, walking `[index]` and
`.prop` steps. -/
def updateChain (target : Dynamic) (steps : List LStep) (rhs : Dynamic)
    (pos : Position) : Except EvalAltResult Dynamic :=
  match steps with
  | [] => .ok rhs
  | .index i :: rest =>
    match target with
    | .vArray xs =>
      if h : 0 ≤ i ∧ i.toNat < xs.length then
        match updateChain (xs.get ⟨i.toNat, h.2⟩) rest rhs pos with
        | .ok w => .ok (.vArray (xs.set i.toNat w))
        | .error e => .error e
      else .error (.errorArrayBounds xs.length i pos)
    | _ => .error (.errorIndexingType pos)
  | .member p :: rest =>
    match target with
    | .vMap kvs =>
      match mapGet kvs p with
      | some v =>
        match updateChain v rest rhs pos with
        | .ok w => .ok (.vMap (mapSet kvs p w))
        | .error e => .error e
      | none => .error (.errorDotExpr pos)
    | _ => .error (.errorDotExpr pos)

/-- Writes a new value into the scope entry of the given name (the entry
found by `lookupScope`), keeping its constness flag. -/
def writeScope : Scope → String → Dynamic → Scope
  | [], _, _ => []
  | (n, v, c) :: rest, x, w => if n = x then (n, w, c) :: rest else (n, v, c) :: writeScope rest x w

/-- Modelled from the spec: executing one statement against a scope.  A
`const`/`let` binding pushes a new entry; an assignment first resolves the
root of its lvalue chain and, when that root is a const entry, fails with
`ErrorAssignmentToConstant(name, pos)` before any further resolution. -/
def execStmt (sc : Scope) : Stmt → Except EvalAltResult Scope
  | .constDecl n v => .ok ((n, v, true) :: sc)
  | .letDecl n v => .ok ((n, v, false) :: sc)
  | .assign root steps rhs pos =>
    match lookupScope sc root with
    | none => .error (.errorVariableNotFound root pos)
    | some (_, true) => .error (.errorAssignmentToConstant root pos)
    | some (v, false) =>
      match updateChain v steps rhs pos with
      | .ok w => .ok (writeScope sc root w)
      | .error e => .error e

/-- Modelled from the spec: running a statement list, stopping at the
first error. -/
def runProg : Scope → List Stmt → Except EvalAltResult Scope
  | sc, [] => .ok sc
  | sc, s :: rest =>
    match execStmt sc s with
    | .ok sc2 => runProg sc2 rest
    | .error e => .error e

/-- When every argument slot's runtime type-id equals the registered
type-id for that slot, the downcast pass succeeds and returns the slots
themselves. -/
theorem downcastAll_of_typeIds (args : FnCallArgs) :
    ∀ tids : List Nat, args.map Dynamic.typeId = tids → downcastAll tids args = some args := by
  induction args with
  | nil =>
    intro tids h
    simp only [List.map_nil] at h
    subst h
    rfl
  | cons a rest ih =>
    intro tids h
    simp only [List.map_cons] at h
    subst h
    simp [downcastAll, ih (rest.map Dynamic.typeId) rfl]

/-- A successful downcast pass forces the argument count to equal the
registered parameter count. -/
theorem downcastAll_length (tids : List Nat) :
    ∀ args vals : FnCallArgs, downcastAll tids args = some vals → args.length = tids.length := by
  induction tids with
  | nil =>
    intro args vals h
    cases args with
    | nil => rfl
    | cons a rest => simp [downcastAll] at h
  | cons t ts ih =>
    intro args vals h
    cases args with
    | nil => simp [downcastAll] at h
    | cons a rest =>
      simp only [downcastAll] at h
      by_cases hta : a.typeId = t
      · rw [if_pos hta] at h
        cases hdr : downcastAll ts rest with
        | none => rw [hdr] at h; simp at h
        | some vs => simp [List.length_cons, ih rest vs hdr]
      · simp [if_neg hta] at h

/-- C1: after a successfully evaluated binding `const x = E`, any assignment
whose lvalue chain roots in the const entry `x` — a direct assignment as well
as mutation through any sequence of index or member steps — is rejected with
`ErrorAssignmentToConstant("x", _)`, never yields an updated scope, and the
value of `x` is unchanged. -/
theorem const_assignment_rejected (sc0 : Scope) (x : String) (v : Dynamic)
    (steps : List LStep) (rhs : Dynamic) (pos : Position) :
    runProg sc0 [.constDecl x v, .assign x steps rhs pos]
        = .error (.errorAssignmentToConstant x pos) ∧
    execStmt ((x, v, true) :: sc0) (.assign x steps rhs pos)
        = .error (.errorAssignmentToConstant x pos) ∧
    lookupScope ((x, v, true) :: sc0) x = some (v, true) ∧
    ∀ sc2, execStmt ((x, v, true) :: sc0) (.assign x steps rhs pos) ≠ .ok sc2 := by
  have hl : lookupScope ((x, v, true) :: sc0) x = some (v, true) := by
    simp [lookupScope]
  have he : execStmt ((x, v, true) :: sc0) (.assign x steps rhs pos)
      = .error (.errorAssignmentToConstant x pos) := by
    simp [execStmt, hl]
  refine ⟨?_, he, hl, ?_⟩
  · simp [runProg, execStmt, hl]
  · intro sc2 hk
    rw [he] at hk
    exact Except.noConfusion hk

/-- C2: with `unchecked_arithmetic` off, the registered integer arithmetic
callables return `ErrorArithmetic(msg, pos)` on overflow, underflow, division
by zero, or remainder by zero; in particular, with 64-bit integers, each of
the six listed boundary expressions faults. -/
theorem checked_arithmetic_faults :
    (∀ x y : Int, ∀ pos, fitsInt (x + y) = false →
        builtin_add x y pos = .error (.errorArithmetic "Addition overflow" pos)) ∧
    (∀ x y : Int, ∀ pos, fitsInt (x - y) = false →
        builtin_sub x y pos = .error (.errorArithmetic "Subtraction underflow" pos)) ∧
    (∀ x y : Int, ∀ pos, fitsInt (x * y) = false →
        builtin_mul x y pos = .error (.errorArithmetic "Multiplication overflow" pos)) ∧
    (∀ x : Int, ∀ pos, builtin_div x 0 pos = .error (.errorArithmetic "Division by zero" pos)) ∧
    (∀ x : Int, ∀ pos, builtin_rem x 0 pos = .error (.errorArithmetic "Remainder by zero" pos)) ∧
    (∀ pos, builtin_abs INT_MIN pos = .error (.errorArithmetic "Negation overflow" pos)) ∧
    (∀ pos, builtin_add INT_MAX 1 pos = .error (.errorArithmetic "Addition overflow" pos)) ∧
    (∀ pos, builtin_sub INT_MIN 1 pos = .error (.errorArithmetic "Subtraction underflow" pos)) ∧
    (∀ pos, builtin_mul INT_MAX INT_MAX pos
        = .error (.errorArithmetic "Multiplication overflow" pos)) ∧
    (∀ pos, builtin_div INT_MAX 0 pos = .error (.errorArithmetic "Division by zero" pos)) ∧
    (∀ pos, builtin_rem INT_MAX 0 pos = .error (.errorArithmetic "Remainder by zero" pos)) := by
  refine ⟨?_, ?_, ?_, ?_, ?_, fun pos => rfl, fun pos => rfl, fun pos => rfl,
      fun pos => rfl, fun pos => rfl, fun pos => rfl⟩
  · intro x y pos h; simp [builtin_add, checked_add, toArith, h]
  · intro x y pos h; simp [builtin_sub, checked_sub, toArith, h]
  · intro x y pos h; simp [builtin_mul, checked_mul, toArith, h]
  · intro x pos; simp [builtin_div, checked_div, toArith]
  · intro x pos; simp [builtin_rem, checked_rem, toArith]

/-- Closed witness for C2: the 64-bit addition `INT_MAX + 1` overflows and the
registered `+` callable reports `ErrorArithmetic`. -/
theorem checked_arithmetic_faults_witness :
    fitsInt (INT_MAX + 1) = false ∧
    builtin_add INT_MAX 1 Position.nonePos
      = .error (.errorArithmetic "Addition overflow" Position.nonePos) :=
  ⟨by decide, checked_arithmetic_faults.1 INT_MAX 1 Position.nonePos (by decide)⟩

/-- C3: evaluating the display branch of `src/error.rs` lines 216-224 as
written: the `(line L, position C)` suffix is produced for every concrete
position, but the EOF sentinel produces no suffix at all (not the
end-of-script text) and the none sentinel produces the parenthesized suffix
`" ()"` (not nothing) — the EOF and none cases are swapped relative to the
claimed mapping. -/
theorem parse_error_position_suffix_swapped :
    (∀ l c, posSuffix (.pos l c) = " (" ++ Position.render (.pos l c) ++ ")") ∧
    posSuffix Position.eof = "" ∧
    posSuffix Position.eof ≠ eofSuffixText ∧
    posSuffix Position.nonePos = " ()" ∧
    posSuffix Position.nonePos ≠ "" ∧
    ParseError.display ⟨.unexpectedEOF, .eof⟩ = "Script is incomplete" :=
  ⟨fun _ _ => rfl, rfl, by decide, rfl, by decide, rfl⟩

/-- C8: with the default registered integer builtins, `1 + 2`, `1 - 2`,
`2 * 3`, `1 / 2` and `3 % 2` evaluate to `3`, `-1`, `6`, `0` and `1`
respectively, with integer division truncating toward zero. -/
theorem default_integer_ops_results (pos : Position) :
    builtin_add 1 2 pos = .ok (.vInt 3) ∧
    builtin_sub 1 2 pos = .ok (.vInt (-1)) ∧
    builtin_mul 2 3 pos = .ok (.vInt 6) ∧
    builtin_div 1 2 pos = .ok (.vInt 0) ∧
    builtin_rem 3 2 pos = .ok (.vInt 1) ∧
    builtin_div (-1) 2 pos = .ok (.vInt 0) :=
  ⟨rfl, rfl, rfl, rfl, rfl, rfl⟩

/-- C10: the display message for `AssignmentToConstant(name)`: the empty name
yields the generic text and every non-empty name the specific
single-quoted form. -/
theorem assignment_to_constant_message (s : String) :
    (s = "" → fmtMessage (.assignmentToConstant s) = "Cannot assign to a constant variable.") ∧
    (s ≠ "" → fmtMessage (.assignmentToConstant s)
        = "Cannot assign to constant " ++ sqc ++ s ++ sqc) := by
  constructor
  · intro h; subst h; rfl
  · intro h; simp [fmtMessage, h]

/-- Closed witness for C10 at the names `"x"` and `""`. -/
theorem assignment_to_constant_message_witness :
    fmtMessage (.assignmentToConstant "x") = "Cannot assign to constant " ++ sqc ++ "x" ++ sqc ∧
    fmtMessage (.assignmentToConstant "") = "Cannot assign to a constant variable." :=
  ⟨(assignment_to_constant_message "x").2 (by decide),
   (assignment_to_constant_message "").1 rfl⟩

/-- C4: a by-mutable-reference registration passes the first argument slot
through without cloning, so the update made by the native callable is visible
in the caller's argument storage, while every remaining slot is cloned and
left unchanged; an all-by-value registration leaves every slot, including the
first, unchanged. -/
theorem mut_first_param_passthrough (fnName : String) (t0 : Nat) (tids : List Nat)
    (a0 : Dynamic) (rest : FnCallArgs) (pos : Position)
    (h0 : a0.typeId = t0) (hrest : rest.map Dynamic.typeId = tids)
    (vtids : List Nat) (vargs : FnCallArgs) (hv : vargs.map Dynamic.typeId = vtids) :
    (∀ (α : Type) (boxA : α → Dynamic) (f : Dynamic → List Dynamic → α × Dynamic),
      register_fn_mut fnName t0 tids boxA f (a0 :: rest) pos
        = some (.ok (boxA (f a0 rest).1, (f a0 rest).2 :: rest))) ∧
    (∀ f : Dynamic → List Dynamic → Dynamic × Dynamic,
      register_dynamic_fn_mut fnName t0 tids f (a0 :: rest) pos
        = some (.ok ((f a0 rest).1, (f a0 rest).2 :: rest))) ∧
    (∀ (α : Type) (boxA : α → Dynamic)
        (f : Dynamic → List Dynamic → Except EvalAltResult (α × Dynamic))
        (r : α) (d : Dynamic), f a0 rest = .ok (r, d) →
      register_result_fn_mut fnName t0 tids boxA f (a0 :: rest) pos
        = some (.ok (boxA r, d :: rest))) ∧
    (∀ (α : Type) (boxA : α → Dynamic) (f : List Dynamic → α),
      register_fn_value fnName vtids boxA f vargs pos
        = some (.ok (boxA (f vargs), vargs))) ∧
    (∀ f : List Dynamic → Dynamic,
      register_dynamic_fn_value fnName vtids f vargs pos
        = some (.ok (f vargs, vargs))) ∧
    (∀ (α : Type) (boxA : α → Dynamic) (f : List Dynamic → Except EvalAltResult α) (r : α),
      f vargs = .ok r →
      register_result_fn_value fnName vtids boxA f vargs pos
        = some (.ok (boxA r, vargs))) := by
  have hdc : downcastAll (t0 :: tids) (a0 :: rest) = some (a0 :: rest) :=
    downcastAll_of_typeIds (a0 :: rest) (t0 :: tids) (by simp [h0, hrest])
  have hlen : (a0 :: rest).length = (t0 :: tids).length := by
    have := congrArg List.length hrest
    simpa using this
  have hvdc : downcastAll vtids vargs = some vargs :=
    downcastAll_of_typeIds vargs vtids hv
  have hvlen : vargs.length = vtids.length := by
    have := congrArg List.length hv
    simpa using this
  refine ⟨?_, ?_, ?_, ?_, ?_, ?_⟩
  · intro α boxA f
    simp [register_fn_mut, hlen, hdc]
  · intro f
    simp [register_dynamic_fn_mut, hlen, hdc]
  · intro α boxA f r d hfr
    simp [register_result_fn_mut, hlen, hdc, hfr]
  · intro α boxA f
    simp [register_fn_value, hvlen, hvdc]
  · intro f
    simp [register_dynamic_fn_value, hvlen, hvdc]
  · intro α boxA f r hfr
    simp [register_result_fn_value, hvlen, hvdc, hfr]

/-- Closed witness for C4: a mut-first callable that overwrites its first
slot with `99` has the write land in the caller's argument storage, while an
all-by-value callable leaves both slots untouched. -/
theorem mut_first_param_passthrough_witness :
    register_fn_mut "touch" 2 [2] (fun _ : Unit => Dynamic.vUnit)
        (fun _ _ => ((), Dynamic.vInt 99)) [Dynamic.vInt 5, Dynamic.vInt 7] Position.nonePos
      = some (.ok (Dynamic.vUnit, [Dynamic.vInt 99, Dynamic.vInt 7])) ∧
    register_fn_value "peek" [2, 2] (fun _ : Unit => Dynamic.vUnit)
        (fun _ => ()) [Dynamic.vInt 5, Dynamic.vInt 7] Position.nonePos
      = some (.ok (Dynamic.vUnit, [Dynamic.vInt 5, Dynamic.vInt 7])) := by
  have h := mut_first_param_passthrough "touch" 2 [2] (Dynamic.vInt 5) [Dynamic.vInt 7]
      Position.nonePos rfl rfl [2, 2] [Dynamic.vInt 5, Dynamic.vInt 7] rfl
  exact ⟨h.1 Unit (fun _ => Dynamic.vUnit) (fun _ _ => ((), Dynamic.vInt 99)),
    h.2.2.2.1 Unit (fun _ => Dynamic.vUnit) (fun _ => ())⟩

/-- C5: for every registered callable of any of the three flavors (in both
parameter modes) and every argument list whose length differs from the
registered parameter count, the registry entry returns
`ErrorFunctionArgsMismatch(name, expected, actual, pos)`, independently of
the native function, which is therefore never invoked. -/
theorem arity_mismatch_rejected (fnName : String) (tids : List Nat) (t0 : Nat)
    (args : FnCallArgs) (pos : Position) :
    (args.length ≠ tids.length →
      (∀ (α : Type) (boxA : α → Dynamic) (f : List Dynamic → α),
        register_fn_value fnName tids boxA f args pos
          = some (.error (.errorFunctionArgsMismatch fnName tids.length args.length pos))) ∧
      (∀ f : List Dynamic → Dynamic,
        register_dynamic_fn_value fnName tids f args pos
          = some (.error (.errorFunctionArgsMismatch fnName tids.length args.length pos))) ∧
      (∀ (α : Type) (boxA : α → Dynamic) (f : List Dynamic → Except EvalAltResult α),
        register_result_fn_value fnName tids boxA f args pos
          = some (.error (.errorFunctionArgsMismatch fnName tids.length args.length pos)))) ∧
    (args.length ≠ tids.length + 1 →
      (∀ (α : Type) (boxA : α → Dynamic) (f : Dynamic → List Dynamic → α × Dynamic),
        register_fn_mut fnName t0 tids boxA f args pos
          = some (.error (.errorFunctionArgsMismatch fnName (tids.length + 1) args.length pos))) ∧
      (∀ f : Dynamic → List Dynamic → Dynamic × Dynamic,
        register_dynamic_fn_mut fnName t0 tids f args pos
          = some (.error (.errorFunctionArgsMismatch fnName (tids.length + 1) args.length pos))) ∧
      (∀ (α : Type) (boxA : α → Dynamic)
          (f : Dynamic → List Dynamic → Except EvalAltResult (α × Dynamic)),
        register_result_fn_mut fnName t0 tids boxA f args pos
          = some (.error (.errorFunctionArgsMismatch fnName (tids.length + 1) args.length pos)))) := by
  constructor
  · intro hv
    refine ⟨?_, ?_, ?_⟩
    · intro α boxA f; simp [register_fn_value, hv]
    · intro f; simp [register_dynamic_fn_value, hv]
    · intro α boxA f; simp [register_result_fn_value, hv]
  · intro hm
    refine ⟨?_, ?_, ?_⟩
    · intro α boxA f; simp [register_fn_mut, hm]
    · intro f; simp [register_dynamic_fn_mut, hm]
    · intro α boxA f; simp [register_result_fn_mut, hm]

/-- Closed witness for C5: a two-parameter by-value entry called with one
argument, and a two-parameter mut-first entry called with one argument, are
each rejected with the full mismatch payload. -/
theorem arity_mismatch_rejected_witness :
    ([Dynamic.vInt 1] : FnCallArgs).length ≠ ([2, 2] : List Nat).length ∧
    register_fn_value "add" [2, 2] Dynamic.vInt
        (fun _ => (0 : Int)) [Dynamic.vInt 1] Position.nonePos
      = some (.error (.errorFunctionArgsMismatch "add" 2 1 Position.nonePos)) ∧
    register_fn_mut "push" 5 [2] Dynamic.vInt
        (fun _ _ => ((0 : Int), Dynamic.vUnit)) [Dynamic.vInt 1] Position.nonePos
      = some (.error (.errorFunctionArgsMismatch "push" 2 1 Position.nonePos)) := by
  refine ⟨by decide, ?_, ?_⟩
  · have h := ((arity_mismatch_rejected "add" [2, 2] 0 [Dynamic.vInt 1] Position.nonePos).1
        (by decide)).1 Int Dynamic.vInt (fun _ => 0)
    simpa using h
  · have h := ((arity_mismatch_rejected "push" [2] 5 [Dynamic.vInt 1] Position.nonePos).2
        (by decide)).1 Int Dynamic.vInt (fun _ _ => (0, Dynamic.vUnit))
    simpa using h

/-- C6: for the fallible flavor, a native error has the current call position
stamped onto it via `set_position` before surfacing, and a native success is
boxed into a dynamic value and returned unchanged. -/
theorem result_fn_position_stamped (fnName : String) (tids : List Nat)
    (args : FnCallArgs) (pos : Position) (h : args.map Dynamic.typeId = tids)
    (t0 : Nat) (mtids : List Nat) (a0 : Dynamic) (rest : FnCallArgs)
    (h0 : a0.typeId = t0) (hrest : rest.map Dynamic.typeId = mtids) :
    (∀ (α : Type) (boxA : α → Dynamic) (f : List Dynamic → Except EvalAltResult α)
        (e : EvalAltResult), f args = .error e →
      register_result_fn_value fnName tids boxA f args pos
        = some (.error (e.set_position pos))) ∧
    (∀ (α : Type) (boxA : α → Dynamic) (f : List Dynamic → Except EvalAltResult α) (r : α),
      f args = .ok r →
      register_result_fn_value fnName tids boxA f args pos = some (.ok (boxA r, args))) ∧
    (∀ (α : Type) (boxA : α → Dynamic)
        (f : Dynamic → List Dynamic → Except EvalAltResult (α × Dynamic))
        (e : EvalAltResult), f a0 rest = .error e →
      register_result_fn_mut fnName t0 mtids boxA f (a0 :: rest) pos
        = some (.error (e.set_position pos))) ∧
    (∀ (α : Type) (boxA : α → Dynamic)
        (f : Dynamic → List Dynamic → Except EvalAltResult (α × Dynamic))
        (r : α) (d : Dynamic), f a0 rest = .ok (r, d) →
      register_result_fn_mut fnName t0 mtids boxA f (a0 :: rest) pos
        = some (.ok (boxA r, d :: rest))) ∧
    (∀ e : EvalAltResult, ∀ p2 : Position, (e.set_position p2).position = p2) := by
  have hdc : downcastAll tids args = some args := downcastAll_of_typeIds args tids h
  have hlen : args.length = tids.length := by
    have := congrArg List.length h
    simpa using this
  have hmdc : downcastAll (t0 :: mtids) (a0 :: rest) = some (a0 :: rest) :=
    downcastAll_of_typeIds (a0 :: rest) (t0 :: mtids) (by simp [h0, hrest])
  have hmlen : (a0 :: rest).length = (t0 :: mtids).length := by
    have := congrArg List.length hrest
    simpa using this
  refine ⟨?_, ?_, ?_, ?_, ?_⟩
  · intro α boxA f e hfe
    simp [register_result_fn_value, hlen, hdc, hfe]
  · intro α boxA f r hfr
    simp [register_result_fn_value, hlen, hdc, hfr]
  · intro α boxA f e hfe
    simp [register_result_fn_mut, hmlen, hmdc, hfe]
  · intro α boxA f r d hfr
    simp [register_result_fn_mut, hmlen, hmdc, hfr]
  · intro e p2
    cases e <;> rfl

/-- Closed witness for C6: a fallible callable returning a runtime error
positioned at none surfaces with the call position stamped on, in both
parameter modes, and successes are boxed and passed through. -/
theorem result_fn_position_stamped_witness :
    register_result_fn_value "fail" [2] Dynamic.vInt
        (fun _ => .error (.errorRuntime "boom" Position.nonePos))
        [Dynamic.vInt 1] (Position.pos 3 4)
      = some (.error (.errorRuntime "boom" (Position.pos 3 4))) ∧
    register_result_fn_value "pass" [2] Dynamic.vInt
        (fun _ => .ok (42 : Int)) [Dynamic.vInt 1] (Position.pos 3 4)
      = some (.ok (Dynamic.vInt 42, [Dynamic.vInt 1])) ∧
    register_result_fn_mut "mpass" 2 [] Dynamic.vInt
        (fun _ _ => .ok ((7 : Int), Dynamic.vInt 8)) [Dynamic.vInt 1] (Position.pos 3 4)
      = some (.ok (Dynamic.vInt 7, [Dynamic.vInt 8])) := by
  have h := result_fn_position_stamped "fail" [2] [Dynamic.vInt 1] (Position.pos 3 4) rfl
      2 [] (Dynamic.vInt 1) [] rfl rfl
  have h2 := result_fn_position_stamped "pass" [2] [Dynamic.vInt 1] (Position.pos 3 4) rfl
      2 [] (Dynamic.vInt 1) [] rfl rfl
  have h3 := result_fn_position_stamped "mpass" [2] [Dynamic.vInt 1] (Position.pos 3 4) rfl
      2 [] (Dynamic.vInt 1) [] rfl rfl
  exact ⟨h.1 Int Dynamic.vInt (fun _ => .error (.errorRuntime "boom" Position.nonePos))
      (.errorRuntime "boom" Position.nonePos) rfl,
    h2.2.1 Int Dynamic.vInt (fun _ => .ok 42) 42 rfl,
    h3.2.2.2.1 Int Dynamic.vInt (fun _ _ => .ok (7, Dynamic.vInt 8)) 7 (Dynamic.vInt 8) rfl⟩

/-- C7: registering under an already-present signature key replaces the
earlier entry — a lookup after two registrations under the same key finds the
later callable — and registration preserves the invariant that no two
registry records share a signature key. -/
theorem registration_replaces (reg : Registry) (name : String) (tids : List Nat)
    (f g : NativeEntry) :
    find_entry (register_fn_raw (register_fn_raw reg name tids f) name tids g) name tids
      = some ⟨name, tids, g⟩ ∧
    (∀ reg2 : Registry, goodKeys reg2 →
      ∀ n t hf, goodKeys (register_fn_raw reg2 n t hf)) := by
  constructor
  · simp [find_entry, register_fn_raw, List.find?]
  · intro reg2 hg n t hf
    unfold goodKeys register_fn_raw
    refine List.Pairwise.cons ?_ ?_
    · intro b hb hcontra
      have hmem := List.of_mem_filter hb
      simp only [decide_not, Bool.not_eq_eq_eq_not, Bool.not_true, decide_eq_false_iff_not] at hmem
      exact hmem ⟨hcontra.1.symm, hcontra.2.symm⟩
    · exact hg.sublist (List.filter_sublist _)

/-- Closed witness for C7: two registrations of `"f" : (Int) -> _` on the
empty registry leave exactly the second entry callable and keep the keys
duplicate-free. -/
theorem registration_replaces_witness :
    find_entry (register_fn_raw (register_fn_raw [] "f" [2] (fun _ _ => none)) "f" [2]
        (fun _ _ => some (.ok (Dynamic.vUnit, [])))) "f" [2]
      = some ⟨"f", [2], fun _ _ => some (.ok (Dynamic.vUnit, []))⟩ ∧
    goodKeys (register_fn_raw [] "f" [2] (fun _ _ => none)) := by
  have h := registration_replaces [] "f" [2] (fun _ _ => none)
      (fun _ _ => some (.ok (Dynamic.vUnit, [])))
  exact ⟨h.1, h.2 [] (List.Pairwise.nil) "f" [2] (fun _ _ => none)⟩

/-- C9: each adapter closure downcasts every argument slot with an
unconditional unwrap after only the argument-count check; under exact-match
dispatch — every slot's runtime type-id equal to the registered type-id for
that slot — each downcast succeeds, so the panic branch (modelled `none`) is
unreachable for all six adapters. -/
theorem exact_match_no_panic (fnName : String) (tids : List Nat)
    (args : FnCallArgs) (pos : Position) (h : args.map Dynamic.typeId = tids)
    (t0 : Nat) (mtids : List Nat) (a0 : Dynamic) (rest : FnCallArgs)
    (h0 : a0.typeId = t0) (hrest : rest.map Dynamic.typeId = mtids) :
    (∀ (α : Type) (boxA : α → Dynamic) (f : List Dynamic → α),
      (register_fn_value fnName tids boxA f args pos).isSome) ∧
    (∀ f : List Dynamic → Dynamic,
      (register_dynamic_fn_value fnName tids f args pos).isSome) ∧
    (∀ (α : Type) (boxA : α → Dynamic) (f : List Dynamic → Except EvalAltResult α),
      (register_result_fn_value fnName tids boxA f args pos).isSome) ∧
    (∀ (α : Type) (boxA : α → Dynamic) (f : Dynamic → List Dynamic → α × Dynamic),
      (register_fn_mut fnName t0 mtids boxA f (a0 :: rest) pos).isSome) ∧
    (∀ f : Dynamic → List Dynamic → Dynamic × Dynamic,
      (register_dynamic_fn_mut fnName t0 mtids f (a0 :: rest) pos).isSome) ∧
    (∀ (α : Type) (boxA : α → Dynamic)
        (f : Dynamic → List Dynamic → Except EvalAltResult (α × Dynamic)),
      (register_result_fn_mut fnName t0 mtids boxA f (a0 :: rest) pos).isSome) := by
  have hdc : downcastAll tids args = some args := downcastAll_of_typeIds args tids h
  have hlen : args.length = tids.length := by
    have := congrArg List.length h
    simpa using this
  have hmdc : downcastAll (t0 :: mtids) (a0 :: rest) = some (a0 :: rest) :=
    downcastAll_of_typeIds (a0 :: rest) (t0 :: mtids) (by simp [h0, hrest])
  have hmlen : (a0 :: rest).length = (t0 :: mtids).length := by
    have := congrArg List.length hrest
    simpa using this
  refine ⟨?_, ?_, ?_, ?_, ?_, ?_⟩
  · intro α boxA f; simp [register_fn_value, hlen, hdc]
  · intro f; simp [register_dynamic_fn_value, hlen, hdc]
  · intro α boxA f
    simp only [register_result_fn_value, hlen, hdc]
    cases f args <;> simp
  · intro α boxA f; simp [register_fn_mut, hmlen, hmdc]
  · intro f; simp [register_dynamic_fn_mut, hmlen, hmdc]
  · intro α boxA f
    simp only [register_result_fn_mut, hmlen, hmdc]
    cases f a0 rest <;> simp

/-- Closed witness for C9: an exactly-matching two-integer call never reaches
the panic branch of the `register_fn` adapter. -/
theorem exact_match_no_panic_witness :
    ([Dynamic.vInt 1, Dynamic.vInt 2] : FnCallArgs).map Dynamic.typeId = [2, 2] ∧
    (register_fn_value "add" [2, 2] Dynamic.vInt
        (fun _ => (0 : Int)) [Dynamic.vInt 1, Dynamic.vInt 2] Position.nonePos).isSome := by
  refine ⟨rfl, ?_⟩
  exact (exact_match_no_panic "add" [2, 2] [Dynamic.vInt 1, Dynamic.vInt 2] Position.nonePos rfl
      2 [2] (Dynamic.vInt 1) [Dynamic.vInt 2] rfl rfl).1 Int Dynamic.vInt (fun _ => 0)

end Rhai
